import Mathlib

/-!
Verification of the CSV-to-ICS core of `streamlit_app.py` (repository
`conversioneturni`): the column resolver `_pick_col` / `_def_map`, the
truthy-token set `_truthy`, and the row-to-event mapper and calendar
serializer `csv_text_to_ics` (lines 47–144 of the source).

Modelling choices, shared by all definitions below:
* A pandas cell value is modelled by `PyVal`: `PyVal.nan` is a missing cell
  (`NaN` after `pd.read_csv`), `PyVal.str s` is the cell's text, and
  `PyVal.none` is Python `None` (which arises only as a `row.get` default).
* `pd.to_datetime(value, dayfirst=True, errors="coerce")` is modelled on the
  string shapes this program feeds it: one `D/M/YYYY` date token, optionally
  followed by one `H:MM` time token; every other input coerces to `NaT`
  (`Option.none`), exactly as `errors="coerce"` does.
* Third-party calendar-object construction (`ics.Event`, `make_all_day`,
  `cal.events.add`) is modelled as the total construction of an `Event`
  record; the per-run `created` stamp and uid are freshly generated,
  non-deterministic fields and are outside the deterministic model, as is
  the iteration order of the event set (modelled as insertion order).
* `str(cal)` is modelled at the granularity of its lines (`serializeCal`),
  with the per-run `DTSTAMP`/`UID` lines abstracted away.
-/

namespace ConversioneTurni

/-- A Python value as it flows through the row-mapping code: `none` is Python
`None`, `nan` is a pandas missing value, `str` is a string cell. -/
inductive PyVal where
  | none
  | nan
  | str (s : String)
deriving DecidableEq, Repr

/-- Models `pd.isna` on the values this program passes to it. -/
def pd.isna : PyVal → Bool
  | .none => true
  | .nan => true
  | .str _ => false

/-- Models `pd.notna`. -/
def pd.notna (v : PyVal) : Bool := !pd.isna v

/-- Models Python `str(...)` on the values this program converts. -/
def pyStr : PyVal → String
  | .none => "None"
  | .nan => "nan"
  | .str s => s

/-- Models Python `str.lower` on the characters that can reach the all-day
token comparison (ASCII plus the accented `Ì` of `"sì"`). -/
def pyLowerChar (c : Char) : Char := if c = 'Ì' then 'ì' else c.toLower

/-- Models Python `str.lower` (character-wise). -/
def pyLower (s : String) : String := String.mk (s.data.map pyLowerChar)

/-- The whitespace characters stripped by `str.strip` that can occur in a
CSV cell. -/
def isSpaceChar (c : Char) : Bool := c = ' ' || c = '\t' || c = '\n' || c = '\r'

/-- Models Python `str.strip()`. -/
def pyStrip (s : String) : String :=
  String.mk (((s.data.dropWhile isSpaceChar).reverse.dropWhile isSpaceChar).reverse)

/-- Split a character list at every occurrence of `c`. -/
def splitChAux (c : Char) : List Char → List Char → List (List Char)
  | [], acc => [acc.reverse]
  | x :: xs, acc =>
    if x = c then acc.reverse :: splitChAux c xs [] else splitChAux c xs (x :: acc)

/-- Split a string at every occurrence of the character `c` (the behaviour of
splitting on a one-character separator). -/
def splitCh (c : Char) (s : String) : List String :=
  (splitChAux c s.data []).map String.mk

/-- The numeric value of a digit list, most significant first. -/
def natOfDigits : List Char → Nat → Nat
  | [], acc => acc
  | c :: cs, acc => natOfDigits cs (acc * 10 + (c.toNat - 48))

/-- Parse a nonempty all-digit token as a number (the numeric fields inside a
date or time token). -/
def parseNat (s : String) : Option Nat :=
  if s.data ≠ [] ∧ s.data.all Char.isDigit then some (natOfDigits s.data 0)
  else Option.none

/-- A calendar date (year, month, day). -/
structure Date where
  year : Nat
  month : Nat
  day : Nat
deriving DecidableEq, Repr

/-- A naive timestamp, as produced by `pd.to_datetime` on this program's
inputs (second precision is never produced, so minutes suffice). -/
structure DateTime where
  date : Date
  hour : Nat
  minute : Nat
deriving DecidableEq, Repr

/-- Gregorian leap year. -/
def isLeap (y : Nat) : Bool := y % 4 == 0 && (y % 100 != 0 || y % 400 == 0)

/-- Days in a Gregorian month. -/
def daysInMonth (y m : Nat) : Nat :=
  if m = 2 then (if isLeap y then 29 else 28)
  else if m = 4 ∨ m = 6 ∨ m = 9 ∨ m = 11 then 30
  else 31

/-- Parse one `D/M/YYYY` token with pandas `dayfirst=True` semantics:
prefer the day-first reading; fall back to month-first when the day-first
reading is impossible; otherwise fail. -/
def parseDateToken (s : String) : Option Date :=
  match splitCh '/' s with
  | [a, b, c] =>
    match parseNat a, parseNat b, parseNat c with
    | some da, some db, some y =>
      if c.length = 4 then
        if 1 ≤ db ∧ db ≤ 12 ∧ 1 ≤ da ∧ da ≤ daysInMonth y db then
          some ⟨y, db, da⟩
        else if 1 ≤ da ∧ da ≤ 12 ∧ 1 ≤ db ∧ db ≤ daysInMonth y da then
          some ⟨y, da, db⟩
        else Option.none
      else Option.none
    | _, _, _ => Option.none
  | _ => Option.none

/-- Parse one `H:MM` time token. -/
def parseTimeToken (s : String) : Option (Nat × Nat) :=
  match splitCh ':' s with
  | [hs, ms] =>
    match parseNat hs, parseNat ms with
    | some h, some m => if h < 24 ∧ m < 60 then some (h, m) else Option.none
    | _, _ => Option.none
  | _ => Option.none

/-- Models `pd.to_datetime(value, dayfirst=True, errors="coerce")` on the
values this program feeds it; `Option.none` is `NaT`. -/
def pd.to_datetime (v : PyVal) : Option DateTime :=
  match v with
  | .str s =>
    match (splitCh ' ' s).filter (fun t => t ≠ "") with
    | [d] => (parseDateToken d).map (fun dd => ⟨dd, 0, 0⟩)
    | [d, t] =>
      match parseDateToken d, parseTimeToken t with
      | some dd, some hm => some ⟨dd, hm.1, hm.2⟩
      | _, _ => Option.none
    | _ => Option.none
  | _ => Option.none

/-- The day after `d` in the Gregorian calendar. -/
def nextDay (d : Date) : Date :=
  if d.day < daysInMonth d.year d.month then ⟨d.year, d.month, d.day + 1⟩
  else if d.month < 12 then ⟨d.year, d.month + 1, 1⟩
  else ⟨d.year + 1, 1, 1⟩

/-- `n` days after `d`. -/
def addDays (d : Date) : Nat → Date
  | 0 => d
  | n + 1 => nextDay (addDays d n)

/-- Models `timestamp + pd.Timedelta(minutes=n)`. -/
def addMinutes (dt : DateTime) (n : Nat) : DateTime :=
  let total := dt.hour * 60 + dt.minute + n
  ⟨addDays dt.date (total / 1440), total % 1440 / 60, total % 60⟩

/-- A calendar-event bound: a bare date (`ev.begin = x.date()`, all-day path)
or a timestamp (`ev.begin = x.to_pydatetime()`, timed path). -/
inductive Instant where
  | date (d : Date)
  | dateTime (dt : DateTime)
deriving DecidableEq, Repr

/-- The deterministic fields of one produced `ics.Event` (the per-run
`created` stamp and uid are freshly generated and outside the model). -/
structure Event where
  name : String
  begin : Instant
  «end» : Instant
  allDay : Bool
  description : Option String
  location : Option String
deriving DecidableEq, Repr

/-- The table produced by `pd.read_csv`: named columns and rows of cells
aligned with them; a missing cell is `PyVal.nan`. -/
structure Table where
  columns : List String
  rows : List (List PyVal)
deriving Repr

/-- Models `row.get(c, dflt)` on one pandas row. -/
def rowGet (cols : List String) (row : List PyVal) (c : String) (dflt : PyVal) : PyVal :=
  match (cols.zip row).lookup c with
  | some v => v
  | _ => dflt

/-- `_pick_col` (source lines 47–51): the first candidate name that is a
column of the table, else `None`. -/
def _pick_col (columns : List String) (candidates : List String) : Option String :=
  candidates.find? (fun c => columns.contains c)

/-- `_def_map` (source lines 53–62): the alias table, one ordered candidate
list per semantic field. -/
def _def_map (field : String) : List String :=
  if field = "subject" then ["Subject", "Oggetto", "Titolo"]
  else if field = "start_date" then ["Start Date", "Data Inizio", "Data inizio", "Data"]
  else if field = "start_time" then ["Start Time", "Ora Inizio", "Ora inizio", "Ora"]
  else if field = "end_date" then ["End Date", "Data Fine", "Data fine"]
  else if field = "end_time" then ["End Time", "Ora Fine", "Ora fine"]
  else if field = "allday" then ["All Day Event", "Evento giornaliero", "Giornata intera"]
  else if field = "description" then ["Description", "Descrizione", "Note"]
  else if field = "location" then ["Location", "Luogo", "Sede"]
  else []

/-- `_truthy` (source line 64): the all-day truthy tokens. -/
def _truthy : List String := ["true", "1", "yes", "y", "si", "sì", "x"]

/-- The resolved column name of each semantic field. -/
structure FieldMap where
  subj : String
  sd : String
  stime : String
  ed : String
  etime : String
  alld : Option String
  desc : Option String
  loc : Option String
deriving DecidableEq, Repr

/-- Source lines 71–78: resolve every semantic field against the table's
columns; the five primary fields fall back to a canonical name. -/
def resolveFields (columns : List String) : FieldMap where
  subj := (_pick_col columns (_def_map "subject")).getD "Subject"
  sd := (_pick_col columns (_def_map "start_date")).getD "Start Date"
  stime := (_pick_col columns (_def_map "start_time")).getD "Start Time"
  ed := (_pick_col columns (_def_map "end_date")).getD "End Date"
  etime := (_pick_col columns (_def_map "end_time")).getD "End Time"
  alld := _pick_col columns (_def_map "allday")
  desc := _pick_col columns (_def_map "description")
  loc := _pick_col columns (_def_map "location")

/-- Source line 84: `str(row.get(subj, "Evento")).strip() or "Evento"`. -/
def rowName (cols : List String) (subj : String) (row : List PyVal) : String :=
  let s := pyStrip (pyStr (rowGet cols row subj (.str "Evento")))
  if s = "" then "Evento" else s

/-- Source lines 86–90: the explicit all-day flag of one row. -/
def rowIsAllDay (cols : List String) (alld : Option String) (row : List PyVal) : Bool :=
  match alld with
  | some a =>
    let val := rowGet cols row a .none
    if pd.notna val then _truthy.contains (pyLower (pyStrip (pyStr val))) else false
  | _ => false

/-- Source line 92: `start_date_val = row.get(sd)`. -/
def sdVal (cols : List String) (fm : FieldMap) (row : List PyVal) : PyVal :=
  rowGet cols row fm.sd .none

/-- Source line 93: `end_date_val = row.get(ed, start_date_val)`. -/
def edVal (cols : List String) (fm : FieldMap) (row : List PyVal) : PyVal :=
  rowGet cols row fm.ed (sdVal cols fm row)

/-- Source line 94: `start_time_val = row.get(stime, None)`. -/
def stVal (cols : List String) (fm : FieldMap) (row : List PyVal) : PyVal :=
  rowGet cols row fm.stime .none

/-- Source line 95: `end_time_val = row.get(etime, None)`. -/
def etVal (cols : List String) (fm : FieldMap) (row : List PyVal) : PyVal :=
  rowGet cols row fm.etime .none

/-- Source lines 99–103: the all-day end instant — parse the end date
(falling back to the start date when the end date is missing), and fall back
to the parsed start `b` when that parse fails. -/
def allDayEnd (sdv edv : PyVal) (b : DateTime) : DateTime :=
  (pd.to_datetime (if pd.notna edv then edv else sdv)).getD b

/-- Source lines 110–116: compose the timed start instant;
`Option.none` covers both Python `None` and `NaT`. -/
def timedBegin (start_date_val start_time_val : PyVal) : Option DateTime :=
  if pd.notna start_date_val then
    if pd.notna start_time_val && (pyStrip (pyStr start_time_val) != "") then
      pd.to_datetime (.str (pyStr start_date_val ++ " " ++ pyStr start_time_val))
    else
      pd.to_datetime (.str (pyStr start_date_val ++ " 00:00"))
  else Option.none

/-- Source lines 117–121: compose the timed end instant; `b` is the already
composed start; `Option.none` covers both Python `None` and `NaT`. -/
def timedEnd (end_date_val end_time_val : PyVal) (b : Option DateTime) : Option DateTime :=
  if pd.notna end_date_val then
    if pd.notna end_time_val && (pyStrip (pyStr end_time_val) != "") then
      pd.to_datetime (.str (pyStr end_date_val ++ " " ++ pyStr end_time_val))
    else
      match b with
      | some bb => some (addMinutes bb 60)
      | _ => Option.none
  else Option.none

/-- Source lines 132–135: attach description/location when the column is
resolved and the row's value is non-missing. -/
def optField (cols : List String) (c : Option String) (row : List PyVal) : Option String :=
  match c with
  | some cc =>
    let v := rowGet cols row cc .none
    if pd.notna v then some (pyStr v) else Option.none
  | _ => Option.none

/-- Source lines 97–130: the begin/end instants and all-day flag of one row,
or `Option.none` when the row is skipped (`continue`). -/
def rowCore (cols : List String) (fm : FieldMap) (row : List PyVal) :
    Option (Instant × Instant × Bool) :=
  if rowIsAllDay cols fm.alld row
      || (pd.isna (stVal cols fm row) && pd.isna (etVal cols fm row)) then
    match pd.to_datetime (sdVal cols fm row) with
    | Option.none => Option.none
    | some b =>
      some (.date b.date, .date (allDayEnd (sdVal cols fm row) (edVal cols fm row) b).date,
        true)
  else
    match timedBegin (sdVal cols fm row) (stVal cols fm row) with
    | Option.none => Option.none
    | some b =>
      some (.dateTime b,
        .dateTime ((timedEnd (edVal cols fm row) (etVal cols fm row) (some b)).getD
          (addMinutes b 60)),
        false)

/-- Source lines 82–142, one iteration: map one row to its calendar event,
or `Option.none` when the row is skipped. -/
def mapRow (cols : List String) (fm : FieldMap) (row : List PyVal) : Option Event :=
  (rowCore cols fm row).map fun bea =>
    { name := rowName cols fm.subj row
      begin := bea.1
      «end» := bea.2.1
      allDay := bea.2.2
      description := optField cols fm.desc row
      location := optField cols fm.loc row }

/-- Source lines 80–142: the event collection accumulated over all rows. -/
def eventsOf (df : Table) : List Event :=
  df.rows.filterMap (mapRow df.columns (resolveFields df.columns))

/-- Pad a number to two digits. -/
def pad2 (n : Nat) : String := if n < 10 then "0" ++ toString n else toString n

/-- Pad a number to four digits. -/
def pad4 (n : Nat) : String :=
  if n < 10 then "000" ++ toString n
  else if n < 100 then "00" ++ toString n
  else if n < 1000 then "0" ++ toString n
  else toString n

/-- `YYYYMMDD`. -/
def dateStr (d : Date) : String := pad4 d.year ++ pad2 d.month ++ pad2 d.day

/-- The value part of a `DTSTART`/`DTEND` content line: date-only for the
all-day path, date-time for the timed path. -/
def instantStr : Instant → String
  | .date d => ";VALUE=DATE:" ++ dateStr d
  | .dateTime dt =>
    ":" ++ dateStr dt.date ++ "T" ++ pad2 dt.hour ++ pad2 dt.minute ++ "00Z"

/-- ICS text escaping of backslash, semicolon, comma and newline. -/
def escapeChar (c : Char) : List Char :=
  if c = '\\' then ['\\', '\\']
  else if c = ';' then ['\\', ';']
  else if c = ',' then ['\\', ',']
  else if c = '\n' then ['\\', 'n']
  else [c]

/-- ICS text escaping of a whole text value. -/
def escapeText (s : String) : String := String.mk (s.data.flatMap escapeChar)

/-- One serialized `VEVENT` block, as lines (the per-run `DTSTAMP` and `UID`
lines are freshly generated and outside the deterministic model). -/
def eventBlock (ev : Event) : List String :=
  ["BEGIN:VEVENT",
   "DTSTART" ++ instantStr ev.begin,
   "DTEND" ++ instantStr ev.«end»,
   "SUMMARY:" ++ escapeText ev.name]
  ++ (match ev.description with
      | some d => ["DESCRIPTION:" ++ escapeText d]
      | _ => [])
  ++ (match ev.location with
      | some l => ["LOCATION:" ++ escapeText l]
      | _ => [])
  ++ ["END:VEVENT"]

/-- The fixed calendar header emitted by the serializer. -/
def calHeader : List String :=
  ["BEGIN:VCALENDAR", "VERSION:2.0", "PRODID:ics.py - http://git.io/lLljaA"]

/-- The fixed calendar trailer emitted by the serializer. -/
def calTrailer : List String := ["END:VCALENDAR"]

/-- `str(cal)`, as the document's lines. -/
def serializeCal (evs : List Event) : List String :=
  calHeader ++ evs.flatMap eventBlock ++ calTrailer

/-- Source lines 68–144: the serialized document (as lines) and the reported
event count `len(cal.events)`. -/
def csv_text_to_ics (df : Table) : List String × Nat :=
  (serializeCal (eventsOf df), (eventsOf df).length)

/-- Re-read the number of events from a serialized document by counting its
`BEGIN:VEVENT` marker lines. -/
def countVevents (lines : List String) : Nat :=
  lines.countP (fun l => l == "BEGIN:VEVENT")

/-- Replace one column header by another, keeping all cell contents. -/
def renameCol (oldName newName : String) (cols : List String) : List String :=
  cols.map (fun c => if c = oldName then newName else c)

/-! ### Helper lemmas -/

theorem lookup_zip_not_mem (cols : List String) (row : List PyVal) (c : String)
    (h : c ∉ cols) : (cols.zip row).lookup c = Option.none := by
  induction cols generalizing row with
  | nil => rfl
  | cons x xs ih =>
    cases row with
    | nil => rfl
    | cons v vs =>
      have hx : (c == x) = false := by
        simp only [beq_eq_false_iff_ne, ne_eq]
        intro hh
        exact h (by simp [hh])
      simp only [List.zip_cons_cons, List.lookup, hx]
      exact ih vs (fun hh => h (List.mem_cons_of_mem _ hh))

theorem rowGet_not_mem (cols : List String) (row : List PyVal) (c : String) (d : PyVal)
    (h : c ∉ cols) : rowGet cols row c d = d := by
  unfold rowGet
  rw [lookup_zip_not_mem cols row c h]

theorem isna_truthy_false (v : PyVal) (h : pd.isna v = true) :
    _truthy.contains (pyLower (pyStrip (pyStr v))) = false := by
  cases v with
  | none => decide
  | nan => decide
  | str s => simp [pd.isna] at h

theorem pick_col_cons_mem (columns cands : List String) (c : String) (h : c ∈ columns) :
    _pick_col columns (c :: cands) = some c := by
  unfold _pick_col
  simp [List.find?_cons, h]

theorem pick_col_cons_not_mem (columns cands : List String) (c : String) (h : c ∉ columns) :
    _pick_col columns (c :: cands) = _pick_col columns cands := by
  unfold _pick_col
  simp [List.find?_cons, h]

theorem pick_col_mem (columns cands : List String) (c : String)
    (h : _pick_col columns cands = some c) : c ∈ cands ∧ c ∈ columns := by
  unfold _pick_col at h
  refine ⟨List.mem_of_find?_eq_some h, ?_⟩
  have := List.find?_some h
  simpa using this

theorem pick_col_none_iff (columns cands : List String) :
    _pick_col columns cands = Option.none ↔ ∀ c ∈ cands, c ∉ columns := by
  unfold _pick_col
  rw [List.find?_eq_none]
  simp

theorem length_filterMap_eq_countP (f : α → Option β) (l : List α) :
    (l.filterMap f).length = l.countP (fun a => (f a).isSome) := by
  induction l with
  | nil => rfl
  | cons x xs ih =>
    cases hx : f x with
    | none => simp [List.filterMap_cons, List.countP_cons, hx, ih]
    | some b => simp [List.filterMap_cons, List.countP_cons, hx, ih]

theorem mem_renameCol (oldName newName c : String) (cols : List String)
    (h1 : c ≠ oldName) (h2 : c ≠ newName) :
    c ∈ renameCol oldName newName cols ↔ c ∈ cols := by
  unfold renameCol
  simp only [List.mem_map]
  constructor
  · rintro ⟨x, hx, hex⟩
    by_cases hxo : x = oldName
    · subst hxo
      simp only [if_pos rfl] at hex
      exact absurd hex.symm h2
    · rw [if_neg hxo] at hex
      exact hex ▸ hx
  · intro hc
    exact ⟨c, hc, by rw [if_neg h1]⟩

theorem old_not_mem_renameCol (oldName newName : String) (cols : List String)
    (h : oldName ≠ newName) : oldName ∉ renameCol oldName newName cols := by
  unfold renameCol
  simp only [List.mem_map, not_exists, not_and]
  intro x _
  by_cases hxo : x = oldName
  · rw [if_pos hxo]
    exact fun hh => h hh.symm
  · rw [if_neg hxo]
    exact hxo

theorem new_mem_renameCol (oldName newName : String) (cols : List String)
    (h : oldName ∈ cols) : newName ∈ renameCol oldName newName cols := by
  unfold renameCol
  exact List.mem_map.mpr ⟨oldName, h, by rw [if_pos rfl]⟩

theorem pick_col_renameCol (oldName newName : String) (cols cands : List String)
    (h : ∀ c ∈ cands, c ≠ oldName ∧ c ≠ newName) :
    _pick_col (renameCol oldName newName cols) cands = _pick_col cols cands := by
  induction cands with
  | nil => rfl
  | cons x xs ih =>
    obtain ⟨hx1, hx2⟩ := h x (List.mem_cons_self x xs)
    have hmem := mem_renameCol oldName newName x cols hx1 hx2
    unfold _pick_col
    rw [List.find?_cons, List.find?_cons]
    by_cases hx : x ∈ cols
    · simp [hx, hmem.mpr hx]
    · have : x ∉ renameCol oldName newName cols := fun hh => hx (hmem.mp hh)
      have hx2 : cols.contains x = false := by
        rw [Bool.eq_false_iff]
        intro hh
        exact hx (List.elem_iff.mp hh)
      have this2 : (renameCol oldName newName cols).contains x = false := by
        rw [Bool.eq_false_iff]
        intro hh
        exact this (List.elem_iff.mp hh)
      rw [hx2, this2]
      exact ih (fun c hc => h c (List.mem_cons_of_mem _ hc))

theorem lookup_zip_renameCol (oldName newName c : String) (cols : List String)
    (row : List PyVal) (h1 : c ≠ oldName) (h2 : c ≠ newName) :
    ((renameCol oldName newName cols).zip row).lookup c = (cols.zip row).lookup c := by
  induction cols generalizing row with
  | nil => rfl
  | cons x xs ih =>
    cases row with
    | nil => rfl
    | cons v vs =>
      show (((if x = oldName then newName else x), v) :: ((renameCol oldName newName xs).zip vs)).lookup c = _
      by_cases hxo : x = oldName
      · have hcn : (c == newName) = false := by simp [h2]
        have hco : (c == x) = false := by simp [hxo ▸ h1]
        simp only [if_pos hxo, List.lookup, hcn, hco]
        exact ih vs
      · simp only [if_neg hxo, List.lookup]
        cases hcx : c == x with
        | true => rfl
        | false => exact ih vs

theorem rowGet_renameCol (oldName newName c : String) (cols : List String)
    (row : List PyVal) (d : PyVal) (h1 : c ≠ oldName) (h2 : c ≠ newName) :
    rowGet (renameCol oldName newName cols) row c d = rowGet cols row c d := by
  unfold rowGet
  rw [lookup_zip_renameCol oldName newName c cols row h1 h2]

theorem lookup_zip_renameCol_new (oldName newName : String) (cols : List String)
    (row : List PyVal) (hnew : newName ∉ cols) :
    ((renameCol oldName newName cols).zip row).lookup newName = (cols.zip row).lookup oldName := by
  induction cols generalizing row with
  | nil => rfl
  | cons x xs ih =>
    cases row with
    | nil => rfl
    | cons v vs =>
      have hxn : x ≠ newName := fun hh => hnew (by simp [hh])
      show (((if x = oldName then newName else x), v) :: ((renameCol oldName newName xs).zip vs)).lookup newName = _
      by_cases hxo : x = oldName
      · simp only [if_pos hxo, List.lookup, beq_self_eq_true]
        rw [show (oldName == x) = true by simp [hxo]]
      · have hno : (newName == x) = false := by simp [Ne.symm hxn]
        have hoo : (oldName == x) = false := by simp [Ne.symm hxo]
        simp only [if_neg hxo, List.lookup, hno, hoo]
        exact ih vs (fun hh => hnew (List.mem_cons_of_mem _ hh))

theorem rowGet_renameCol_new (oldName newName : String) (cols : List String)
    (row : List PyVal) (d : PyVal) (hnew : newName ∉ cols) :
    rowGet (renameCol oldName newName cols) row newName d = rowGet cols row oldName d := by
  unfold rowGet
  rw [lookup_zip_renameCol_new oldName newName cols row hnew]

theorem append_ne_marker (c : Char) (l : List Char) (s : String) (hc : c ≠ 'B') :
    (String.mk (c :: l) ++ s) ≠ "BEGIN:VEVENT" := by
  intro h
  have h2 := congrArg String.data h
  rw [String.data_append] at h2
  have h3 : c :: (l ++ s.data) = 'B' :: "EGIN:VEVENT".data := h2
  exact hc (by injection h3)

theorem beq_marker_prefix (c : Char) (l : List Char) (s : String) (hc : c ≠ 'B') :
    ((String.mk (c :: l) ++ s) == "BEGIN:VEVENT") = false := by
  rw [beq_eq_false_iff_ne]
  exact append_ne_marker c l s hc

theorem dtstart_ne_marker (s : String) : (("DTSTART" ++ s) == "BEGIN:VEVENT") = false :=
  beq_marker_prefix 'D' "TSTART".data s (by decide)

theorem dtend_ne_marker (s : String) : (("DTEND" ++ s) == "BEGIN:VEVENT") = false :=
  beq_marker_prefix 'D' "TEND".data s (by decide)

theorem summary_ne_marker (s : String) : (("SUMMARY:" ++ s) == "BEGIN:VEVENT") = false :=
  beq_marker_prefix 'S' "UMMARY:".data s (by decide)

theorem description_ne_marker (s : String) :
    (("DESCRIPTION:" ++ s) == "BEGIN:VEVENT") = false :=
  beq_marker_prefix 'D' "ESCRIPTION:".data s (by decide)

theorem location_ne_marker (s : String) : (("LOCATION:" ++ s) == "BEGIN:VEVENT") = false :=
  beq_marker_prefix 'L' "OCATION:".data s (by decide)

theorem countP_eventBlock (ev : Event) :
    (eventBlock ev).countP (fun l => l == "BEGIN:VEVENT") = 1 := by
  have hEnd : (("END:VEVENT" : String) == "BEGIN:VEVENT") = false := by decide
  unfold eventBlock
  cases ev.description <;> cases ev.location <;>
    simp [List.countP_cons, List.countP_append, dtstart_ne_marker, dtend_ne_marker,
      summary_ne_marker, description_ne_marker, location_ne_marker, hEnd]

theorem countP_flatMap_eventBlock (evs : List Event) :
    (evs.flatMap eventBlock).countP (fun l => l == "BEGIN:VEVENT") = evs.length := by
  induction evs with
  | nil => rfl
  | cons e es ih =>
    rw [List.flatMap_cons, List.countP_append, countP_eventBlock, ih, List.length_cons,
      Nat.add_comm]

theorem countVevents_serializeCal (evs : List Event) :
    countVevents (serializeCal evs) = evs.length := by
  have h1 : calHeader.countP (fun l => l == "BEGIN:VEVENT") = 0 := by decide
  have h2 : calTrailer.countP (fun l => l == "BEGIN:VEVENT") = 0 := by decide
  unfold countVevents serializeCal
  rw [List.countP_append, List.countP_append, countP_flatMap_eventBlock, h1, h2]
  omega

theorem getD_pick_mem (cols cands : List String) (dflt : String) :
    (_pick_col cols cands).getD dflt = dflt ∨ (_pick_col cols cands).getD dflt ∈ cands := by
  cases h : _pick_col cols cands with
  | none => left; rfl
  | some c =>
    right
    simpa using (pick_col_mem cols cands c h).1

theorem mapRow_skip (cols : List String) (fm : FieldMap) (row : List PyVal)
    (h1 : pd.to_datetime (sdVal cols fm row) = Option.none)
    (h2 : timedBegin (sdVal cols fm row) (stVal cols fm row) = Option.none) :
    mapRow cols fm row = Option.none := by
  have hc : rowCore cols fm row = Option.none := by
    unfold rowCore
    split
    · rw [h1]
    · rw [h2]
  unfold mapRow
  rw [hc]
  rfl

theorem mapRow_name (cols : List String) (fm : FieldMap) (row : List PyVal) (ev : Event)
    (h : mapRow cols fm row = some ev) : ev.name = rowName cols fm.subj row := by
  unfold mapRow at h
  cases hc : rowCore cols fm row with
  | none => rw [hc] at h; cases h
  | some bea =>
    rw [hc] at h
    have hev := Option.some.inj h
    rw [← hev]

theorem rowIsAllDay_iff (cols : List String) (alld : Option String) (row : List PyVal) :
    rowIsAllDay cols alld row = true ↔
      ∃ a, alld = some a ∧
        _truthy.contains (pyLower (pyStrip (pyStr (rowGet cols row a .none)))) = true := by
  cases alld with
  | none => simp [rowIsAllDay]
  | some a =>
    have hr : rowIsAllDay cols (some a) row
        = if pd.notna (rowGet cols row a .none) = true then
            _truthy.contains (pyLower (pyStrip (pyStr (rowGet cols row a .none))))
          else false := rfl
    rw [hr]
    by_cases hv : pd.notna (rowGet cols row a .none) = true
    · rw [if_pos hv]
      constructor
      · intro h
        exact ⟨a, rfl, h⟩
      · rintro ⟨a2, ha2, h⟩
        injection ha2 with ha2
        subst ha2
        exact h
    · rw [if_neg hv]
      constructor
      · intro h
        cases h
      · rintro ⟨a2, ha2, h⟩
        injection ha2 with ha2
        subst ha2
        have hna : pd.isna (rowGet cols row a .none) = true := by
          cases hna : pd.isna (rowGet cols row a .none) with
          | false => exact absurd (by simp [pd.notna, hna]) hv
          | true => rfl
        rw [isna_truthy_false _ hna] at h
        cases h

theorem mapRow_allDay_eq (cols : List String) (fm : FieldMap) (row : List PyVal) (ev : Event)
    (h : mapRow cols fm row = some ev) :
    ev.allDay = (rowIsAllDay cols fm.alld row
      || (pd.isna (stVal cols fm row) && pd.isna (etVal cols fm row))) := by
  unfold mapRow at h
  cases hc : rowCore cols fm row with
  | none => rw [hc] at h; cases h
  | some bea =>
    rw [hc] at h
    have hev := Option.some.inj h
    rw [← hev]
    show bea.2.2 = _
    unfold rowCore at hc
    cases hcond : (rowIsAllDay cols fm.alld row
        || (pd.isna (stVal cols fm row) && pd.isna (etVal cols fm row))) with
    | true =>
      rw [if_pos hcond] at hc
      cases hb : pd.to_datetime (sdVal cols fm row) with
      | none => rw [hb] at hc; cases hc
      | some b =>
        rw [hb] at hc
        have := Option.some.inj hc
        rw [← this]
    | false =>
      rw [if_neg (by rw [hcond]; exact Bool.false_ne_true)] at hc
      cases hb : timedBegin (sdVal cols fm row) (stVal cols fm row) with
      | none => rw [hb] at hc; cases hc
      | some b =>
        rw [hb] at hc
        have := Option.some.inj hc
        rw [← this]

theorem getD_pick_ne (cols cands : List String) (dflt a b : String)
    (hd : dflt ≠ a ∧ dflt ≠ b) (hc : ∀ c ∈ cands, c ≠ a ∧ c ≠ b) :
    (_pick_col cols cands).getD dflt ≠ a ∧ (_pick_col cols cands).getD dflt ≠ b := by
  rcases getD_pick_mem cols cands dflt with h | h
  · rw [h]
    exact hd
  · exact hc _ h

theorem rowName_congr (cols1 cols2 : List String) (s1 s2 : String) (row : List PyVal)
    (h : rowGet cols1 row s1 (.str "Evento") = rowGet cols2 row s2 (.str "Evento")) :
    rowName cols1 s1 row = rowName cols2 s2 row := by
  unfold rowName
  rw [h]

theorem rowIsAllDay_congr (cols1 cols2 : List String) (row : List PyVal) (a : String)
    (h : rowGet cols1 row a .none = rowGet cols2 row a .none) :
    rowIsAllDay cols1 (some a) row = rowIsAllDay cols2 (some a) row := by
  show (if pd.notna (rowGet cols1 row a .none) = true
      then _truthy.contains (pyLower (pyStrip (pyStr (rowGet cols1 row a .none))))
      else false)
    = (if pd.notna (rowGet cols2 row a .none) = true
      then _truthy.contains (pyLower (pyStrip (pyStr (rowGet cols2 row a .none))))
      else false)
  rw [h]

theorem optField_congr (cols1 cols2 : List String) (row : List PyVal) (cc : String)
    (h : rowGet cols1 row cc .none = rowGet cols2 row cc .none) :
    optField cols1 (some cc) row = optField cols2 (some cc) row := by
  show (if pd.notna (rowGet cols1 row cc .none) = true
      then some (pyStr (rowGet cols1 row cc .none)) else Option.none)
    = (if pd.notna (rowGet cols2 row cc .none) = true
      then some (pyStr (rowGet cols2 row cc .none)) else Option.none)
  rw [h]

/-! ### Claims -/

/-- C1: All-day classification — for every input row, the produced event is
flagged all-day if and only if either the resolved all-day-flag column's
value, stripped and lower-cased, is one of the truthy tokens, or both the
start-time and the end-time values are absent; a truthy flag forces all-day
even when the time columns are populated, and in all other cases the event
is timed. -/
theorem c1_allday_iff (cols : List String) (fm : FieldMap) (row : List PyVal) (ev : Event)
    (h : mapRow cols fm row = some ev) :
    ev.allDay = true ↔
      ((∃ a, fm.alld = some a ∧
          _truthy.contains (pyLower (pyStrip (pyStr (rowGet cols row a .none)))) = true)
        ∨ (pd.isna (stVal cols fm row) = true ∧ pd.isna (etVal cols fm row) = true)) := by
  rw [mapRow_allDay_eq cols fm row ev h, Bool.or_eq_true, Bool.and_eq_true,
    rowIsAllDay_iff cols fm.alld row]

/-- Witness for C1: a row with truthy flag `"x"` and a populated start time is
produced as an all-day event, and the classification matches the claim. -/
theorem c1_allday_iff_witness :
    (({ name := "S", begin := .date ⟨2024, 3, 1⟩, «end» := .date ⟨2024, 3, 1⟩,
        allDay := true, description := Option.none, location := Option.none } : Event).allDay
        = true) ↔
      ((∃ a, (resolveFields ["Subject", "Start Date", "Start Time", "All Day Event"]).alld
            = some a ∧
          _truthy.contains (pyLower (pyStrip (pyStr
            (rowGet ["Subject", "Start Date", "Start Time", "All Day Event"]
              [.str "S", .str "01/03/2024", .str "08:00", .str "x"] a .none)))) = true)
        ∨ (pd.isna (stVal ["Subject", "Start Date", "Start Time", "All Day Event"]
              (resolveFields ["Subject", "Start Date", "Start Time", "All Day Event"])
              [.str "S", .str "01/03/2024", .str "08:00", .str "x"]) = true
            ∧ pd.isna (etVal ["Subject", "Start Date", "Start Time", "All Day Event"]
                (resolveFields ["Subject", "Start Date", "Start Time", "All Day Event"])
                [.str "S", .str "01/03/2024", .str "08:00", .str "x"]) = true)) :=
  c1_allday_iff ["Subject", "Start Date", "Start Time", "All Day Event"]
    (resolveFields ["Subject", "Start Date", "Start Time", "All Day Event"])
    [.str "S", .str "01/03/2024", .str "08:00", .str "x"] _ (by decide)

/-- C2: Timed-path end default — on the timed path, when a valid start
instant exists and the end-time value is absent or blank, or the composed
end instant is invalid, the produced event's end is exactly the start plus
60 minutes (the end is composed from end date plus end time only when both
are present). -/
theorem c2_end_default (cols : List String) (fm : FieldMap) (row : List PyVal) (b : DateTime)
    (hpath : (rowIsAllDay cols fm.alld row
        || (pd.isna (stVal cols fm row) && pd.isna (etVal cols fm row))) = false)
    (hb : timedBegin (sdVal cols fm row) (stVal cols fm row) = some b)
    (habsent : pd.isna (etVal cols fm row) = true
        ∨ pyStrip (pyStr (etVal cols fm row)) = ""
        ∨ pd.to_datetime
            (.str (pyStr (edVal cols fm row) ++ " " ++ pyStr (etVal cols fm row)))
            = Option.none) :
    ∃ ev, mapRow cols fm row = some ev
      ∧ ev.begin = .dateTime b
      ∧ ev.«end» = .dateTime (addMinutes b 60)
      ∧ ev.allDay = false := by
  have hend : timedEnd (edVal cols fm row) (etVal cols fm row) (some b) = Option.none
      ∨ timedEnd (edVal cols fm row) (etVal cols fm row) (some b)
          = some (addMinutes b 60) := by
    unfold timedEnd
    by_cases hed : pd.notna (edVal cols fm row) = true
    · rw [if_pos hed]
      by_cases hcomp : (pd.notna (etVal cols fm row)
          && (pyStrip (pyStr (etVal cols fm row)) != "")) = true
      · rw [if_pos hcomp]
        rw [Bool.and_eq_true] at hcomp
        obtain ⟨h1, h2⟩ := hcomp
        rcases habsent with h | h | h
        · rw [pd.notna, h] at h1
          cases h1
        · rw [h] at h2
          cases h2
        · left
          exact h
      · rw [if_neg hcomp]
        right
        rfl
    · rw [if_neg hed]
      left
      rfl
  refine ⟨⟨rowName cols fm.subj row, .dateTime b, .dateTime (addMinutes b 60), false,
    optField cols fm.desc row, optField cols fm.loc row⟩, ?_, rfl, rfl, rfl⟩
  have hc : rowCore cols fm row = some (.dateTime b, .dateTime (addMinutes b 60), false) := by
    unfold rowCore
    rw [if_neg (by rw [hpath]; exact Bool.false_ne_true), hb]
    show some (Instant.dateTime b,
        Instant.dateTime ((timedEnd (edVal cols fm row) (etVal cols fm row) (some b)).getD
          (addMinutes b 60)), false)
      = some (Instant.dateTime b, Instant.dateTime (addMinutes b 60), false)
    rcases hend with h | h <;> rw [h] <;> rfl
  unfold mapRow
  rw [hc]
  rfl

/-- Witness for C2: a row with start `01/03/2024 08:00` and no end time is
produced with end `09:00` the same day. -/
theorem c2_end_default_witness :
    ∃ ev, mapRow ["Subject", "Start Date", "Start Time"]
        (resolveFields ["Subject", "Start Date", "Start Time"])
        [.str "Shift", .str "01/03/2024", .str "08:00"] = some ev
      ∧ ev.begin = .dateTime ⟨⟨2024, 3, 1⟩, 8, 0⟩
      ∧ ev.«end» = .dateTime (addMinutes ⟨⟨2024, 3, 1⟩, 8, 0⟩ 60)
      ∧ ev.allDay = false :=
  c2_end_default ["Subject", "Start Date", "Start Time"]
    (resolveFields ["Subject", "Start Date", "Start Time"])
    [.str "Shift", .str "01/03/2024", .str "08:00"] ⟨⟨2024, 3, 1⟩, 8, 0⟩
    (by decide) (by decide) (Or.inl (by decide))

/-- C3: Partial-failure policy — a skipped row is simply omitted: the other
rows map exactly as they would without it, the reported count equals the
number of successfully mapped rows, and a row whose start value yields no
valid instant on either path (in particular an unparseable start date) is
skipped. -/
theorem c3_partial_failure :
    (∀ cols pre row suf, mapRow cols (resolveFields cols) row = Option.none →
        eventsOf ⟨cols, pre ++ row :: suf⟩ = eventsOf ⟨cols, pre ++ suf⟩)
    ∧ (∀ df : Table, (csv_text_to_ics df).2
        = df.rows.countP (fun r => (mapRow df.columns (resolveFields df.columns) r).isSome))
    ∧ (∀ cols fm row, pd.to_datetime (sdVal cols fm row) = Option.none →
        timedBegin (sdVal cols fm row) (stVal cols fm row) = Option.none →
        mapRow cols fm row = Option.none) := by
  refine ⟨?_, ?_, fun cols fm row h1 h2 => mapRow_skip cols fm row h1 h2⟩
  · intro cols pre row suf h
    unfold eventsOf
    show (pre ++ row :: suf).filterMap _ = (pre ++ suf).filterMap _
    rw [List.filterMap_append, List.filterMap_append, List.filterMap_cons, h]
  · intro df
    unfold csv_text_to_ics eventsOf
    exact length_filterMap_eq_countP _ _

/-- Witness for C3: a middle row with an unparseable start date is dropped
and the surrounding rows are unaffected. -/
theorem c3_partial_failure_witness :
    eventsOf ⟨["Subject", "Start Date"],
        [[.str "A", .str "01/03/2024"], [.str "B", .str "not a date"],
         [.str "C", .str "02/03/2024"]]⟩
      = eventsOf ⟨["Subject", "Start Date"],
        [[.str "A", .str "01/03/2024"], [.str "C", .str "02/03/2024"]]⟩ :=
  c3_partial_failure.1 ["Subject", "Start Date"] [[.str "A", .str "01/03/2024"]]
    [.str "B", .str "not a date"] [[.str "C", .str "02/03/2024"]] (by decide)

/-- C4: Day-first timed scenario — the single row
`Subject="Morning Shift", Start Date="01/03/2024", Start Time="08:00",
End Date="01/03/2024", End Time="16:00"` yields exactly one timed event with
begin 2024-03-01T08:00 and end 2024-03-01T16:00: the ambiguous `D/M/Y` dates
are parsed day-first. -/
theorem c4_dayfirst_scenario :
    eventsOf ⟨["Subject", "Start Date", "Start Time", "End Date", "End Time"],
      [[.str "Morning Shift", .str "01/03/2024", .str "08:00",
        .str "01/03/2024", .str "16:00"]]⟩
    = [{ name := "Morning Shift", begin := .dateTime ⟨⟨2024, 3, 1⟩, 8, 0⟩,
         «end» := .dateTime ⟨⟨2024, 3, 1⟩, 16, 0⟩, allDay := false,
         description := Option.none, location := Option.none }] := by
  decide

/-- C5: Column Resolver contract — resolution picks the first candidate of
the declared alias list that is present in the columns; when none is
present, the all-day, description and location fields resolve to `None`
while the five primary fields fall back to their fixed canonical names;
resolution is a pure function of the columns and the alias table. -/
theorem c5_resolver (columns : List String) :
    (∀ c cands, c ∈ columns → _pick_col columns (c :: cands) = some c)
    ∧ (∀ c cands, c ∉ columns → _pick_col columns (c :: cands) = _pick_col columns cands)
    ∧ (∀ cands c, _pick_col columns cands = some c → c ∈ cands ∧ c ∈ columns)
    ∧ ((∀ c ∈ _def_map "allday", c ∉ columns) → (resolveFields columns).alld = Option.none)
    ∧ ((∀ c ∈ _def_map "description", c ∉ columns) →
        (resolveFields columns).desc = Option.none)
    ∧ ((∀ c ∈ _def_map "location", c ∉ columns) → (resolveFields columns).loc = Option.none)
    ∧ ((∀ c ∈ _def_map "subject", c ∉ columns) → (resolveFields columns).subj = "Subject")
    ∧ ((∀ c ∈ _def_map "start_date", c ∉ columns) →
        (resolveFields columns).sd = "Start Date")
    ∧ ((∀ c ∈ _def_map "start_time", c ∉ columns) →
        (resolveFields columns).stime = "Start Time")
    ∧ ((∀ c ∈ _def_map "end_date", c ∉ columns) → (resolveFields columns).ed = "End Date")
    ∧ ((∀ c ∈ _def_map "end_time", c ∉ columns) → (resolveFields columns).etime = "End Time")
    := by
  refine ⟨fun c cands h => pick_col_cons_mem columns cands c h,
    fun c cands h => pick_col_cons_not_mem columns cands c h,
    fun cands c h => pick_col_mem columns cands c h,
    fun h => (pick_col_none_iff columns _).mpr h,
    fun h => (pick_col_none_iff columns _).mpr h,
    fun h => (pick_col_none_iff columns _).mpr h, ?_, ?_, ?_, ?_, ?_⟩
  · intro h
    show (_pick_col columns (_def_map "subject")).getD "Subject" = "Subject"
    rw [(pick_col_none_iff columns _).mpr h]
    rfl
  · intro h
    show (_pick_col columns (_def_map "start_date")).getD "Start Date" = "Start Date"
    rw [(pick_col_none_iff columns _).mpr h]
    rfl
  · intro h
    show (_pick_col columns (_def_map "start_time")).getD "Start Time" = "Start Time"
    rw [(pick_col_none_iff columns _).mpr h]
    rfl
  · intro h
    show (_pick_col columns (_def_map "end_date")).getD "End Date" = "End Date"
    rw [(pick_col_none_iff columns _).mpr h]
    rfl
  · intro h
    show (_pick_col columns (_def_map "end_time")).getD "End Time" = "End Time"
    rw [(pick_col_none_iff columns _).mpr h]
    rfl

/-- Witness for C5: with only an unrelated column, the all-day field is
unresolved and the start-date field falls back to its canonical name. -/
theorem c5_resolver_witness :
    (resolveFields ["Oggetto"]).alld = Option.none
    ∧ (resolveFields ["Oggetto"]).sd = "Start Date" :=
  ⟨(c5_resolver ["Oggetto"]).2.2.2.1 (by decide),
   (c5_resolver ["Oggetto"]).2.2.2.2.2.2.2.1 (by decide)⟩

/-- C6 counterexample: a row whose subject cell is missing (`NaN`) in a
present Subject column, with a valid date, produces an event named `"nan"`,
not the placeholder; and for a row with no Subject column at all the
placeholder actually used is the literal `"Evento"`, not `"Event"` — so the
claim fails as stated. -/
theorem c6_counterexample :
    eventsOf ⟨["Subject", "Start Date"], [[.nan, .str "02/03/2024"]]⟩
      = [{ name := "nan", begin := .date ⟨2024, 3, 2⟩, «end» := .date ⟨2024, 3, 2⟩,
           allDay := true, description := Option.none, location := Option.none }]
    ∧ eventsOf ⟨["Start Date"], [[.str "02/03/2024"]]⟩
      = [{ name := "Evento", begin := .date ⟨2024, 3, 2⟩, «end» := .date ⟨2024, 3, 2⟩,
           allDay := true, description := Option.none, location := Option.none }]
    ∧ "nan" ≠ "Event" ∧ "Evento" ≠ "Event" := by
  refine ⟨by decide, by decide, by decide, by decide⟩

/-- C6 (amended): the subject placeholder is the literal `"Evento"`; it is
used when the subject column is absent from the table or when the subject
value is a string that strips to empty, and the event is still produced in
those cases (as its name field); a missing (`NaN`) subject cell in a present
column instead yields the literal string `"nan"`. -/
theorem c6_subject_placeholder (cols : List String) (fm : FieldMap) (row : List PyVal) :
    (fm.subj ∉ cols → rowName cols fm.subj row = "Evento")
    ∧ (∀ s, rowGet cols row fm.subj (.str "Evento") = .str s → pyStrip s = "" →
        rowName cols fm.subj row = "Evento")
    ∧ (∀ ev, mapRow cols fm row = some ev → ev.name = rowName cols fm.subj row)
    ∧ (rowGet cols row fm.subj (.str "Evento") = .nan →
        rowName cols fm.subj row = "nan") := by
  refine ⟨?_, ?_, fun ev h => mapRow_name cols fm row ev h, ?_⟩
  · intro h
    unfold rowName
    rw [rowGet_not_mem cols row fm.subj _ h]
    rfl
  · intro s hs hempty
    unfold rowName
    rw [hs]
    show (if pyStrip s = "" then "Evento" else pyStrip s) = "Evento"
    rw [if_pos hempty]
  · intro h
    unfold rowName
    rw [h]
    rfl

/-- Witness for C6 (amended): a table with no Subject column produces the
placeholder name `"Evento"`. -/
theorem c6_subject_placeholder_witness :
    rowName ["Start Date"] (resolveFields ["Start Date"]).subj [.str "02/03/2024"]
      = "Evento" :=
  (c6_subject_placeholder ["Start Date"] (resolveFields ["Start Date"])
    [.str "02/03/2024"]).1 (by decide)

/-- C7: Serializer count round-trip — for every event collection of size `N`
the serializer reports count `N`, the document is the fixed header, exactly
`N` event blocks, and the fixed trailer, and re-reading the event count from
the document yields `N`; a zero-row input yields header and trailer only
with reported count `0`. -/
theorem c7_count_roundtrip :
    (∀ evs : List Event,
        serializeCal evs = calHeader ++ evs.flatMap eventBlock ++ calTrailer
        ∧ countVevents (serializeCal evs) = evs.length)
    ∧ (∀ df : Table, (csv_text_to_ics df).2 = (eventsOf df).length
        ∧ countVevents (csv_text_to_ics df).1 = (csv_text_to_ics df).2)
    ∧ (∀ df : Table, df.rows = [] → csv_text_to_ics df = (calHeader ++ calTrailer, 0)) := by
  refine ⟨fun evs => ⟨rfl, countVevents_serializeCal evs⟩,
    fun df => ⟨rfl, countVevents_serializeCal _⟩, fun df h => ?_⟩
  unfold csv_text_to_ics eventsOf
  rw [h]
  rfl

/-- Witness for C7: a table with columns but no rows serializes to header
and trailer only, with count `0`. -/
theorem c7_count_roundtrip_witness :
    csv_text_to_ics ⟨["Subject", "Start Date"], []⟩ = (calHeader ++ calTrailer, 0) :=
  c7_count_roundtrip.2.2 ⟨["Subject", "Start Date"], []⟩ rfl

/-- C8: All-day path — on the all-day path the row is skipped exactly when
the start date fails to parse; otherwise the produced event is flagged
all-day with date-only begin/end, where the end is the parsed end date,
falling back to the start date when the end date is absent and to the
parsed start when its parse fails; dates are parsed day-first, and the row
`Subject="Day Off", Start Date="02/03/2024", All Day Event="x"` yields one
all-day event spanning 2024-03-02 to 2024-03-02. -/
theorem c8_allday_path :
    (∀ cols fm row, (rowIsAllDay cols fm.alld row
          || (pd.isna (stVal cols fm row) && pd.isna (etVal cols fm row))) = true →
        pd.to_datetime (sdVal cols fm row) = Option.none →
        mapRow cols fm row = Option.none)
    ∧ (∀ cols fm row b, (rowIsAllDay cols fm.alld row
          || (pd.isna (stVal cols fm row) && pd.isna (etVal cols fm row))) = true →
        pd.to_datetime (sdVal cols fm row) = some b →
        mapRow cols fm row = some
          { name := rowName cols fm.subj row,
            begin := .date b.date,
            «end» := .date (allDayEnd (sdVal cols fm row) (edVal cols fm row) b).date,
            allDay := true,
            description := optField cols fm.desc row,
            location := optField cols fm.loc row })
    ∧ (∀ sdv edv b, pd.isna edv = true →
        allDayEnd sdv edv b = (pd.to_datetime sdv).getD b)
    ∧ pd.to_datetime (.str "02/03/2024") = some ⟨⟨2024, 3, 2⟩, 0, 0⟩
    ∧ eventsOf ⟨["Subject", "Start Date", "All Day Event"],
        [[.str "Day Off", .str "02/03/2024", .str "x"]]⟩
      = [{ name := "Day Off", begin := .date ⟨2024, 3, 2⟩, «end» := .date ⟨2024, 3, 2⟩,
           allDay := true, description := Option.none, location := Option.none }] := by
  refine ⟨?_, ?_, ?_, by decide, by decide⟩
  · intro cols fm row hcond h
    have hc : rowCore cols fm row = Option.none := by
      unfold rowCore
      rw [if_pos hcond, h]
    unfold mapRow
    rw [hc]
    rfl
  · intro cols fm row b hcond h
    have hc : rowCore cols fm row
        = some (.date b.date,
            .date (allDayEnd (sdVal cols fm row) (edVal cols fm row) b).date, true) := by
      unfold rowCore
      rw [if_pos hcond, h]
    unfold mapRow
    rw [hc]
    rfl
  · intro sdv edv b h
    have hn : pd.notna edv = false := by
      unfold pd.notna
      rw [h]
      rfl
    unfold allDayEnd
    rw [if_neg (by rw [hn]; exact Bool.false_ne_true)]

/-- Witness for C8: the `Day Off` scenario row maps to the all-day event
spanning 2024-03-02. -/
theorem c8_allday_path_witness :
    mapRow ["Subject", "Start Date", "All Day Event"]
      (resolveFields ["Subject", "Start Date", "All Day Event"])
      [.str "Day Off", .str "02/03/2024", .str "x"]
    = some { name := "Day Off", begin := .date ⟨2024, 3, 2⟩, «end» := .date ⟨2024, 3, 2⟩,
             allDay := true, description := Option.none, location := Option.none } :=
  c8_allday_path.2.1 ["Subject", "Start Date", "All Day Event"]
    (resolveFields ["Subject", "Start Date", "All Day Event"])
    [.str "Day Off", .str "02/03/2024", .str "x"] ⟨⟨2024, 3, 2⟩, 0, 0⟩
    (by decide) (by decide)

/-- C10: Alias matching is exact and case-sensitive — an upper-cased header
such as `"START DATE"` resolves no start-date candidate, the primary fields
fall back to canonical names absent from the table, every row then lacks a
parseable start value, and the conversion returns the empty calendar with
count `0`. -/
theorem c10_case_sensitive :
    _pick_col ["SUBJECT", "START DATE", "START TIME", "END DATE", "END TIME"]
        (_def_map "start_date") = Option.none
    ∧ (∀ df : Table, (∀ c ∈ _def_map "start_date", c ∉ df.columns) →
        eventsOf df = [] ∧ csv_text_to_ics df = (calHeader ++ calTrailer, 0)) := by
  refine ⟨by decide, ?_⟩
  intro df h
  have hsd : (resolveFields df.columns).sd = "Start Date" := by
    show (_pick_col df.columns (_def_map "start_date")).getD "Start Date" = "Start Date"
    rw [(pick_col_none_iff df.columns _).mpr h]
    rfl
  have hnm : "Start Date" ∉ df.columns := h "Start Date" (by decide)
  have hrow : ∀ row, mapRow df.columns (resolveFields df.columns) row = Option.none := by
    intro row
    have hsdv : sdVal df.columns (resolveFields df.columns) row = PyVal.none := by
      unfold sdVal
      rw [hsd]
      exact rowGet_not_mem df.columns row "Start Date" _ hnm
    apply mapRow_skip
    · rw [hsdv]
      rfl
    · unfold timedBegin
      rw [hsdv]
      rfl
  have hev : eventsOf df = [] := by
    unfold eventsOf
    rw [List.filterMap_eq_nil_iff]
    exact fun a _ => hrow a
  refine ⟨hev, ?_⟩
  unfold csv_text_to_ics
  rw [hev]
  rfl

/-- Witness for C10: a table whose headers are upper-case variants produces
the empty calendar with count `0`. -/
theorem c10_case_sensitive_witness :
    eventsOf ⟨["SUBJECT", "START DATE", "START TIME"],
        [[.str "Shift", .str "01/03/2024", .str "08:00"]]⟩ = []
    ∧ csv_text_to_ics ⟨["SUBJECT", "START DATE", "START TIME"],
        [[.str "Shift", .str "01/03/2024", .str "08:00"]]⟩
      = (calHeader ++ calTrailer, 0) :=
  c10_case_sensitive.2 ⟨["SUBJECT", "START DATE", "START TIME"],
    [[.str "Shift", .str "01/03/2024", .str "08:00"]]⟩ (by decide)

/-- C9: Alias equivalence — replacing the column header `"Start Date"` by
its alias `"Data Inizio"` (contents otherwise equal) resolves to the same
semantic field and produces identical events (the per-run identifier and
creation-stamp fields are freshly generated and outside the deterministic
model, so event equality here is equality of all modelled fields). -/
theorem c9_alias_equivalence (df : Table)
    (h1 : "Start Date" ∈ df.columns) (h2 : "Data Inizio" ∉ df.columns) :
    (resolveFields df.columns).sd = "Start Date"
    ∧ (resolveFields (renameCol "Start Date" "Data Inizio" df.columns)).sd = "Data Inizio"
    ∧ eventsOf ⟨renameCol "Start Date" "Data Inizio" df.columns, df.rows⟩ = eventsOf df := by
  have hpc : ∀ cands : List String,
      (∀ c ∈ cands, c ≠ "Start Date" ∧ c ≠ "Data Inizio") →
      _pick_col (renameCol "Start Date" "Data Inizio" df.columns) cands
        = _pick_col df.columns cands :=
    fun cands hc => pick_col_renameCol "Start Date" "Data Inizio" df.columns cands hc
  have hsd : (resolveFields df.columns).sd = "Start Date" := by
    show (_pick_col df.columns (_def_map "start_date")).getD "Start Date" = "Start Date"
    have hpick : _pick_col df.columns (_def_map "start_date") = some "Start Date" :=
      pick_col_cons_mem df.columns ["Data Inizio", "Data inizio", "Data"] "Start Date" h1
    rw [hpick]
    rfl
  have hsd' : (resolveFields (renameCol "Start Date" "Data Inizio" df.columns)).sd
      = "Data Inizio" := by
    show (_pick_col (renameCol "Start Date" "Data Inizio" df.columns)
        (_def_map "start_date")).getD "Start Date" = "Data Inizio"
    have hnot : "Start Date" ∉ renameCol "Start Date" "Data Inizio" df.columns :=
      old_not_mem_renameCol "Start Date" "Data Inizio" df.columns (by decide)
    have hmem : "Data Inizio" ∈ renameCol "Start Date" "Data Inizio" df.columns :=
      new_mem_renameCol "Start Date" "Data Inizio" df.columns h1
    have hpick : _pick_col (renameCol "Start Date" "Data Inizio" df.columns)
        (_def_map "start_date") = some "Data Inizio" := by
      have e1 := pick_col_cons_not_mem (renameCol "Start Date" "Data Inizio" df.columns)
        ["Data Inizio", "Data inizio", "Data"] "Start Date" hnot
      have e2 := pick_col_cons_mem (renameCol "Start Date" "Data Inizio" df.columns)
        ["Data inizio", "Data"] "Data Inizio" hmem
      exact e1.trans e2
    rw [hpick]
    rfl
  refine ⟨hsd, hsd', ?_⟩
  have hsubj_eq : (resolveFields (renameCol "Start Date" "Data Inizio" df.columns)).subj
      = (resolveFields df.columns).subj := by
    show (_pick_col (renameCol "Start Date" "Data Inizio" df.columns)
          (_def_map "subject")).getD "Subject"
        = (_pick_col df.columns (_def_map "subject")).getD "Subject"
    rw [hpc _ (by decide)]
  have hstime_eq : (resolveFields (renameCol "Start Date" "Data Inizio" df.columns)).stime
      = (resolveFields df.columns).stime := by
    show (_pick_col (renameCol "Start Date" "Data Inizio" df.columns)
          (_def_map "start_time")).getD "Start Time"
        = (_pick_col df.columns (_def_map "start_time")).getD "Start Time"
    rw [hpc _ (by decide)]
  have hed_eq : (resolveFields (renameCol "Start Date" "Data Inizio" df.columns)).ed
      = (resolveFields df.columns).ed := by
    show (_pick_col (renameCol "Start Date" "Data Inizio" df.columns)
          (_def_map "end_date")).getD "End Date"
        = (_pick_col df.columns (_def_map "end_date")).getD "End Date"
    rw [hpc _ (by decide)]
  have hetime_eq : (resolveFields (renameCol "Start Date" "Data Inizio" df.columns)).etime
      = (resolveFields df.columns).etime := by
    show (_pick_col (renameCol "Start Date" "Data Inizio" df.columns)
          (_def_map "end_time")).getD "End Time"
        = (_pick_col df.columns (_def_map "end_time")).getD "End Time"
    rw [hpc _ (by decide)]
  have halld_eq : (resolveFields (renameCol "Start Date" "Data Inizio" df.columns)).alld
      = (resolveFields df.columns).alld := by
    show _pick_col (renameCol "Start Date" "Data Inizio" df.columns) (_def_map "allday")
        = _pick_col df.columns (_def_map "allday")
    exact hpc _ (by decide)
  have hdesc_eq : (resolveFields (renameCol "Start Date" "Data Inizio" df.columns)).desc
      = (resolveFields df.columns).desc := by
    show _pick_col (renameCol "Start Date" "Data Inizio" df.columns)
          (_def_map "description")
        = _pick_col df.columns (_def_map "description")
    exact hpc _ (by decide)
  have hloc_eq : (resolveFields (renameCol "Start Date" "Data Inizio" df.columns)).loc
      = (resolveFields df.columns).loc := by
    show _pick_col (renameCol "Start Date" "Data Inizio" df.columns) (_def_map "location")
        = _pick_col df.columns (_def_map "location")
    exact hpc _ (by decide)
  have hsubj_ne : (resolveFields df.columns).subj ≠ "Start Date"
      ∧ (resolveFields df.columns).subj ≠ "Data Inizio" :=
    getD_pick_ne df.columns (_def_map "subject") "Subject" _ _
      ⟨by decide, by decide⟩ (by decide)
  have hstime_ne : (resolveFields df.columns).stime ≠ "Start Date"
      ∧ (resolveFields df.columns).stime ≠ "Data Inizio" :=
    getD_pick_ne df.columns (_def_map "start_time") "Start Time" _ _
      ⟨by decide, by decide⟩ (by decide)
  have hed_ne : (resolveFields df.columns).ed ≠ "Start Date"
      ∧ (resolveFields df.columns).ed ≠ "Data Inizio" :=
    getD_pick_ne df.columns (_def_map "end_date") "End Date" _ _
      ⟨by decide, by decide⟩ (by decide)
  have hetime_ne : (resolveFields df.columns).etime ≠ "Start Date"
      ∧ (resolveFields df.columns).etime ≠ "Data Inizio" :=
    getD_pick_ne df.columns (_def_map "end_time") "End Time" _ _
      ⟨by decide, by decide⟩ (by decide)
  have hmap : ∀ row, mapRow (renameCol "Start Date" "Data Inizio" df.columns)
      (resolveFields (renameCol "Start Date" "Data Inizio" df.columns)) row
      = mapRow df.columns (resolveFields df.columns) row := by
    intro row
    have hsdv : sdVal (renameCol "Start Date" "Data Inizio" df.columns)
        (resolveFields (renameCol "Start Date" "Data Inizio" df.columns)) row
        = sdVal df.columns (resolveFields df.columns) row := by
      unfold sdVal
      rw [hsd', hsd]
      exact rowGet_renameCol_new "Start Date" "Data Inizio" df.columns row .none h2
    have hstv : stVal (renameCol "Start Date" "Data Inizio" df.columns)
        (resolveFields (renameCol "Start Date" "Data Inizio" df.columns)) row
        = stVal df.columns (resolveFields df.columns) row := by
      unfold stVal
      rw [hstime_eq]
      exact rowGet_renameCol "Start Date" "Data Inizio" _ df.columns row _
        hstime_ne.1 hstime_ne.2
    have hetv : etVal (renameCol "Start Date" "Data Inizio" df.columns)
        (resolveFields (renameCol "Start Date" "Data Inizio" df.columns)) row
        = etVal df.columns (resolveFields df.columns) row := by
      unfold etVal
      rw [hetime_eq]
      exact rowGet_renameCol "Start Date" "Data Inizio" _ df.columns row _
        hetime_ne.1 hetime_ne.2
    have hedv : edVal (renameCol "Start Date" "Data Inizio" df.columns)
        (resolveFields (renameCol "Start Date" "Data Inizio" df.columns)) row
        = edVal df.columns (resolveFields df.columns) row := by
      unfold edVal
      rw [hsdv, hed_eq]
      exact rowGet_renameCol "Start Date" "Data Inizio" _ df.columns row _
        hed_ne.1 hed_ne.2
    have halldv : rowIsAllDay (renameCol "Start Date" "Data Inizio" df.columns)
        (resolveFields (renameCol "Start Date" "Data Inizio" df.columns)).alld row
        = rowIsAllDay df.columns (resolveFields df.columns).alld row := by
      rw [halld_eq]
      cases ha : (resolveFields df.columns).alld with
      | none => rfl
      | some a =>
        have hmem : a ∈ _def_map "allday" :=
          (pick_col_mem df.columns (_def_map "allday") a ha).1
        have hane : a ≠ "Start Date" ∧ a ≠ "Data Inizio" :=
          (by decide : ∀ c ∈ _def_map "allday",
            c ≠ "Start Date" ∧ c ≠ "Data Inizio") a hmem
        exact rowIsAllDay_congr _ df.columns row a
          (rowGet_renameCol "Start Date" "Data Inizio" a df.columns row .none
            hane.1 hane.2)
    have hname : rowName (renameCol "Start Date" "Data Inizio" df.columns)
        (resolveFields (renameCol "Start Date" "Data Inizio" df.columns)).subj row
        = rowName df.columns (resolveFields df.columns).subj row := by
      rw [hsubj_eq]
      exact rowName_congr _ df.columns _ _ row
        (rowGet_renameCol "Start Date" "Data Inizio" (resolveFields df.columns).subj
          df.columns row _ hsubj_ne.1 hsubj_ne.2)
    have hdescv : optField (renameCol "Start Date" "Data Inizio" df.columns)
        (resolveFields (renameCol "Start Date" "Data Inizio" df.columns)).desc row
        = optField df.columns (resolveFields df.columns).desc row := by
      rw [hdesc_eq]
      cases hd : (resolveFields df.columns).desc with
      | none => rfl
      | some dcol =>
        have hmem : dcol ∈ _def_map "description" :=
          (pick_col_mem df.columns (_def_map "description") dcol hd).1
        have hne : dcol ≠ "Start Date" ∧ dcol ≠ "Data Inizio" :=
          (by decide : ∀ c ∈ _def_map "description",
            c ≠ "Start Date" ∧ c ≠ "Data Inizio") dcol hmem
        exact optField_congr _ df.columns row dcol
          (rowGet_renameCol "Start Date" "Data Inizio" dcol df.columns row .none
            hne.1 hne.2)
    have hlocv : optField (renameCol "Start Date" "Data Inizio" df.columns)
        (resolveFields (renameCol "Start Date" "Data Inizio" df.columns)).loc row
        = optField df.columns (resolveFields df.columns).loc row := by
      rw [hloc_eq]
      cases hl : (resolveFields df.columns).loc with
      | none => rfl
      | some lcol =>
        have hmem : lcol ∈ _def_map "location" :=
          (pick_col_mem df.columns (_def_map "location") lcol hl).1
        have hne : lcol ≠ "Start Date" ∧ lcol ≠ "Data Inizio" :=
          (by decide : ∀ c ∈ _def_map "location",
            c ≠ "Start Date" ∧ c ≠ "Data Inizio") lcol hmem
        exact optField_congr _ df.columns row lcol
          (rowGet_renameCol "Start Date" "Data Inizio" lcol df.columns row .none
            hne.1 hne.2)
    have hcore : rowCore (renameCol "Start Date" "Data Inizio" df.columns)
        (resolveFields (renameCol "Start Date" "Data Inizio" df.columns)) row
        = rowCore df.columns (resolveFields df.columns) row := by
      unfold rowCore
      rw [halldv, hstv, hetv, hsdv, hedv]
    unfold mapRow
    rw [hcore, hname, hdescv, hlocv]
  show df.rows.filterMap (mapRow (renameCol "Start Date" "Data Inizio" df.columns)
      (resolveFields (renameCol "Start Date" "Data Inizio" df.columns)))
    = df.rows.filterMap (mapRow df.columns (resolveFields df.columns))
  rw [funext hmap]

/-- Witness for C9: a concrete one-row table with `"Start Date"` renamed to
`"Data Inizio"` resolves the same field and yields the same events. -/
theorem c9_alias_equivalence_witness :
    (resolveFields ["Subject", "Start Date", "Start Time"]).sd = "Start Date"
    ∧ (resolveFields (renameCol "Start Date" "Data Inizio"
        ["Subject", "Start Date", "Start Time"])).sd = "Data Inizio"
    ∧ eventsOf ⟨renameCol "Start Date" "Data Inizio" ["Subject", "Start Date", "Start Time"],
        [[.str "Shift", .str "01/03/2024", .str "08:00"]]⟩
      = eventsOf ⟨["Subject", "Start Date", "Start Time"],
        [[.str "Shift", .str "01/03/2024", .str "08:00"]]⟩ :=
  c9_alias_equivalence ⟨["Subject", "Start Date", "Start Time"],
    [[.str "Shift", .str "01/03/2024", .str "08:00"]]⟩ (by decide) (by decide)

end ConversioneTurni
